import Mathlib

/-!
# mpls_bpf_user: command dispatcher and BPF map client

A shallow embedding of `src/mpls_bpf_user.c`.

* The process state that the C code can observe or change is made explicit in `World`:
  the control value stored at key 0 of the pinned map, the lines written to standard
  output, the diagnostics written to standard error, the trace of `syscall` invocations
  and the log of command functions that were invoked through the function pointer.
* C strings are Lean strings, so `strcmp (a, b) == 0` is `a = b`.
* `argp_usage`, `argp_error` and `argp_parse` belong to glibc; they are modelled by their
  documented behaviour for `flags = 0` (the value `main` passes): the options glibc adds by
  itself (`--help`, `-?`, `--usage`, `--version`, `-V` and the hidden `--program-name` and
  `--HANG`) are recognised before any positional argument reaches `parse_opt`.
-/

namespace MplsBpfUser

/-! ## Targets and kernel ABI -/

/-- The architectures for which the source defines `NR_bpf`; any other one is a compile
error (`#error NR_bpf not defined`). -/
inductive Arch where
  | i386
  | x86_64
  | aarch64
  deriving DecidableEq, Repr

/-- The `NR_bpf` preprocessor constant. -/
def NR_bpf : Arch → Nat
  | .i386 => 357
  | .x86_64 => 321
  | .aarch64 => 280

/-- Width in bits of `unsigned long` (and of a data pointer) on each architecture. -/
def ulong_bits : Arch → Nat
  | .i386 => 32
  | .x86_64 => 64
  | .aarch64 => 64

/-- A build target: the architecture and the value of `sizeof (union bpf_attr)` in the
kernel header the program is compiled against (the header is not part of the repository). -/
structure Target where
  arch : Arch
  sizeof_bpf_attr : Nat
  deriving DecidableEq, Repr

/-- The members of `enum bpf_cmd` of `linux/bpf.h` that the source uses. -/
inductive bpf_cmd where
  | BPF_MAP_LOOKUP_ELEM
  | BPF_MAP_UPDATE_ELEM
  | BPF_OBJ_GET
  deriving DecidableEq, Repr

/-- The two members of `union bpf_attr` that the source initialises, as a tagged sum: the
anonymous struct used by the `BPF_MAP_*_ELEM` commands and the one used by the `BPF_OBJ_*`
commands. Pointers are carried as 64-bit integers, as in the kernel ABI. -/
inductive bpf_attr where
  | elem (map_fd : Nat) (key : Nat) (value : Nat) (flags : Nat)
  | obj (pathname : Nat) (bpf_fd : Nat) (file_flags : Nat)
  deriving DecidableEq, Repr

/-- One invocation of `syscall (number, cmd, &attr, size)`. -/
structure SysEntry where
  number : Nat
  cmd : bpf_cmd
  attr : bpf_attr
  size : Nat
  deriving DecidableEq, Repr

/-! ## Process state -/

/-- The three command functions a `void (*cmd)(void)` pointer of the program can refer to:
`&show`, `&disable` and `&enable`. -/
inductive Fn where
  | show_
  | disable
  | enable
  deriving DecidableEq, Repr

/-- What glibc writes to standard error: the usage message of `argp_usage`, the formatted
message of `argp_error`, or the complaint of `getopt` about the option token `tok`. -/
inductive Diag where
  | usage
  | error (msg : String)
  | option (tok : String)
  deriving DecidableEq, Repr

/-- What glibc writes to standard output by itself: the help list, the short usage message,
or the version string. -/
inductive Notice where
  | help
  | usage
  | version (text : String)
  deriving DecidableEq, Repr

/-- The observable state of one run of the program: the value stored at key 0 of the map,
the lines the program's own code writes to standard output, the diagnostics on standard
error, the system calls issued, the command functions called, and the texts glibc writes to
standard output for its own options. -/
structure World where
  value : Nat
  stdout : List String
  stderr : List Diag
  trace : List SysEntry
  calls : List Fn
  notices : List Notice
  deriving DecidableEq, Repr

/-- The kernel seen as an abstract responder: the result of a system call may depend on the
calls issued so far and on the call itself. -/
abbrev Responder := List SysEntry → SysEntry → Int

/-- The libc `syscall` function as an abstract step: the call is appended to the trace and
the responder's answer is returned. -/
def syscall (k : Responder) (e : SysEntry) (w : World) : Int × World :=
  (k w.trace e, { w with trace := w.trace ++ [e] })

/-! ## Map client (source lines 28-61) -/

/-- `static unsigned long ptr_to_u64 (const void *ptr) { return (unsigned long) ptr; }` -/
def ptr_to_u64 (a : Arch) (ptr : Nat) : Nat :=
  ptr % 2 ^ ulong_bits a

/-- `long bpf_obj_get (const char *pathname)`. -/
def bpf_obj_get (t : Target) (k : Responder) (pathname : Nat) (w : World) : Int × World :=
  let attr := bpf_attr.obj (ptr_to_u64 t.arch pathname % 2 ^ 64) 0 0
  syscall k ⟨NR_bpf t.arch, .BPF_OBJ_GET, attr, t.sizeof_bpf_attr⟩ w

/-- `long bpf_map_update_elem (unsigned int fd, void *key, void *value,
unsigned long long flags)`. -/
def bpf_map_update_elem (t : Target) (k : Responder) (fd key value flags : Nat)
    (w : World) : Int × World :=
  let attr := bpf_attr.elem (fd % 2 ^ 32) (ptr_to_u64 t.arch key % 2 ^ 64)
    (ptr_to_u64 t.arch value % 2 ^ 64) (flags % 2 ^ 64)
  syscall k ⟨NR_bpf t.arch, .BPF_MAP_UPDATE_ELEM, attr, t.sizeof_bpf_attr⟩ w

/-- `long bpf_map_lookup_elem (unsigned int fd, void *key, void *value)`. -/
def bpf_map_lookup_elem (t : Target) (k : Responder) (fd key value : Nat)
    (w : World) : Int × World :=
  let attr := bpf_attr.elem (fd % 2 ^ 32) (ptr_to_u64 t.arch key % 2 ^ 64)
    (ptr_to_u64 t.arch value % 2 ^ 64) 0
  syscall k ⟨NR_bpf t.arch, .BPF_MAP_LOOKUP_ELEM, attr, t.sizeof_bpf_attr⟩ w

/-! ## Command functions (source lines 87-95) -/

/-- `void show (void) {}`: the body is empty. -/
def show_ (w : World) : World := w

/-- `void disable (void) {}`: the body is empty. -/
def disable (w : World) : World := w

/-- `void enable (void) {}`: the body is empty. -/
def enable (w : World) : World := w

/-- The body a function pointer refers to. -/
def Fn.body : Fn → World → World
  | .show_ => MplsBpfUser.show_
  | .disable => MplsBpfUser.disable
  | .enable => MplsBpfUser.enable

/-- The indirect call `(*cmd) ()`: the callee is logged, then its body runs. -/
def call (f : Fn) (w : World) : World :=
  f.body { w with calls := w.calls ++ [f] }

/-! ## Argument parsing (source lines 82-120) -/

/-- `struct arguments { void (*cmd)(void); }`; `none` is the `NULL` pointer. -/
structure arguments where
  cmd : Option Fn
  deriving DecidableEq, Repr

/-- Key of `argp.h`: a positional argument. -/
def ARGP_KEY_ARG : Int := 0

/-- Key of `argp.h`: all arguments have been parsed. -/
def ARGP_KEY_END : Int := 0x1000001

/-- Key of `argp.h`: there was no positional argument at all. -/
def ARGP_KEY_NO_ARGS : Int := 0x1000002

/-- Key of `argp.h`: sent before any parsing is done. -/
def ARGP_KEY_INIT : Int := 0x1000003

/-- Key of `argp.h`: parsing finished without error. -/
def ARGP_KEY_SUCCESS : Int := 0x1000004

/-- Key of `argp.h`: sent last, after success or error. -/
def ARGP_KEY_FINI : Int := 0x1000007

/-- `ARGP_ERR_UNKNOWN` is `E2BIG`. -/
def ARGP_ERR_UNKNOWN : Int := 7

/-- The default value of glibc's `argp_err_exit_status`, `EX_USAGE` of `sysexits.h`; the
program never assigns it. -/
def argp_err_exit_status : Int := 64

/-- How a call of `parse_opt` or `argp_parse` ends: it returns an `error_t` with the updated
`arguments` record, or the process has been terminated with an exit status. -/
inductive Parse where
  | ret (err : Int) (a : arguments) (w : World)
  | exited (status : Int) (w : World)
  deriving DecidableEq, Repr

/-- glibc `argp_usage (state)` with `state->flags = 0`: writes the usage message to standard
error and terminates the process with `argp_err_exit_status`. -/
def argp_usage (w : World) : Parse :=
  .exited argp_err_exit_status { w with stderr := w.stderr ++ [Diag.usage] }

/-- glibc `argp_error (state, fmt, ...)` with `state->flags = 0`: writes the formatted
message to standard error and terminates the process with `argp_err_exit_status`. -/
def argp_error (msg : String) (w : World) : Parse :=
  .exited argp_err_exit_status { w with stderr := w.stderr ++ [Diag.error msg] }

/-- `static error_t parse_opt (int key, char *arg, struct argp_state *state)`; the
`arguments` record is `state->input`. -/
def parse_opt (key : Int) (arg : String) (a : arguments) (w : World) : Parse :=
  if key = ARGP_KEY_NO_ARGS then
    argp_usage w
  else if key = ARGP_KEY_ARG then
    if arg = "show" then
      .ret 0 { a with cmd := some .show_ } w
    else if arg = "disable" then
      .ret 0 { a with cmd := some .disable } w
    else if arg = "show" then
      .ret 0 { a with cmd := some .enable } w
    else
      argp_error (arg ++ " is not a valid command") w
  else
    .ret ARGP_ERR_UNKNOWN a w

/-! ## The driver: glibc `argp_parse` and `main` (source lines 122-134) -/

/-- A call of the parser function with a key that carries no argument: glibc passes a null
`arg`, which `parse_opt` reads only under `ARGP_KEY_ARG`, so the empty string stands for it.
glibc ignores the answer `ARGP_ERR_UNKNOWN` for these keys. -/
def notify (key : Int) (a : arguments) (w : World) : Parse :=
  match parse_opt key "" a w with
  | .ret err a1 w1 => .ret (if err = ARGP_ERR_UNKNOWN then 0 else err) a1 w1
  | .exited s w1 => .exited s w1

/-- Sequencing: the next parsing step runs only when the previous one returned `0`. -/
def Parse.next (p : Parse) (f : arguments → World → Parse) : Parse :=
  match p with
  | .ret err a w => if err = 0 then f a w else .ret err a w
  | .exited s w => .exited s w

/-- The positional arguments are handed to the parser function one by one, in order, each
with `ARGP_KEY_ARG`. -/
def parse_args : List String → arguments → World → Parse
  | [], a, w => .ret 0 a w
  | t :: ts, a, w => (parse_opt ARGP_KEY_ARG t a w).next (parse_args ts)

/-- `const char *argp_program_version = "mpls_bpf_user 1.0";` (source line 65). -/
def argp_program_version : String := "mpls_bpf_user 1.0"

/-- The options glibc itself adds to the parser when `flags` lacks `ARGP_NO_HELP`; the last
one is added because `argp_program_version` is set. The program's own table `options`
(source lines 78-80) is empty. -/
inductive Builtin where
  | help
  | usage
  | program_name
  | HANG
  | version
  deriving DecidableEq, Repr

/-- The long option names, in the order of glibc's table. -/
def long_options : List (String × Builtin) :=
  [("help", .help), ("usage", .usage), ("program-name", .program_name), ("HANG", .HANG),
    ("version", .version)]

/-- The long option a name stands for, as `getopt_long` finds it: an exact match, or else
the only option the name abbreviates; `none` when there is no such option or several. -/
def lookup_long (name : List Char) : Option Builtin :=
  match long_options.filter (fun o => o.1.data = name) with
  | o :: _ => some o.2
  | [] =>
    match long_options.filter (fun o => name.isPrefixOf o.1.data) with
    | [o] => some o.2
    | _ => none

/-- What glibc does with an option token. -/
inductive Action where
  | help
  | usage
  | version
  | reject
  | skip
  | skip_arg
  deriving DecidableEq, Repr

/-- An option token begins with `-` and has at least one more character. -/
def is_option (t : String) : Bool :=
  match t.data with
  | c :: _ :: _ => c = '-'
  | _ => false

/-- The action for an option token other than `--`. A long option `--name` or `--name=value`
is looked up by name: `help`, `usage` and `version` take no value; `program-name` needs one,
in the token or as the next token; `HANG` may have one in the token; both only affect the
texts of messages and the time the run takes. Of the short options only `-?` (help) and `-V`
(version) exist, and both end the run, so the first character after `-` decides. -/
def option_action (t : String) : Action :=
  match t.data with
  | _ :: c :: rest =>
    if c = '-' then
      let name := rest.takeWhile (fun x => x != '=')
      let has_value := decide (name.length < rest.length)
      match lookup_long name with
      | none => .reject
      | some .help => if has_value then .reject else .help
      | some .usage => if has_value then .reject else .usage
      | some .version => if has_value then .reject else .version
      | some .program_name => if has_value then .skip else .skip_arg
      | some .HANG => .skip
    else if c = '?' then .help
    else if c = 'V' then .version
    else .reject
  | _ => .reject

/-- The outcome of the option scan: the positional arguments that are left, in order, or the
end of the process. -/
inductive Scan where
  | args (ps : List String)
  | exit (status : Int) (w : World)
  deriving DecidableEq, Repr

/-- An option glibc does not accept: `getopt` complains on standard error and the process
ends with `argp_err_exit_status`. -/
def option_error (t : String) (w : World) : Scan :=
  .exit argp_err_exit_status { w with stderr := w.stderr ++ [Diag.option t] }

/-- The option scan of `argp_parse` with `flags = 0`, which is `getopt_long` in its default
permuting mode (`POSIXLY_CORRECT` unset): every option token before a `--` is processed, in
order, before any positional argument; `--` ends the options and all tokens after it are
positional. `acc` holds the positional tokens met so far, last one first. Help, usage and
version are written to standard output and end the process with status 0. -/
def scan : List String → List String → World → Scan
  | [], acc, _ => .args acc.reverse
  | t :: ts, acc, w =>
    if t = "--" then
      .args (acc.reverse ++ ts)
    else if is_option t then
      match option_action t with
      | .help => .exit 0 { w with notices := w.notices ++ [Notice.help] }
      | .usage => .exit 0 { w with notices := w.notices ++ [Notice.usage] }
      | .version =>
        .exit 0 { w with notices := w.notices ++ [Notice.version argp_program_version] }
      | .reject => option_error t w
      | .skip => scan ts acc w
      | .skip_arg =>
        match ts with
        | [] => option_error t w
        | _ :: ts1 => scan ts1 acc w
    else
      scan ts (t :: acc) w

/-- glibc `argp_parse (&argp, argc, argv, 0, 0, &arguments)` on the tokens `args` that
follow the program name: `ARGP_KEY_INIT`, the option scan, then one `ARGP_KEY_ARG` per
positional argument, then `ARGP_KEY_NO_ARGS` when there was none, then `ARGP_KEY_END`,
`ARGP_KEY_SUCCESS` and `ARGP_KEY_FINI`. -/
def argp_parse (args : List String) (a : arguments) (w : World) : Parse :=
  (notify ARGP_KEY_INIT a w).next fun a1 w1 =>
  match scan args [] w1 with
  | .exit s w2 => .exited s w2
  | .args ps =>
    (parse_args ps a1 w1).next fun a2 w2 =>
    (if ps = [] then notify ARGP_KEY_NO_ARGS a2 w2 else .ret 0 a2 w2).next fun a3 w3 =>
    (notify ARGP_KEY_END a3 w3).next fun a4 w4 =>
    (notify ARGP_KEY_SUCCESS a4 w4).next fun a5 w5 =>
    notify ARGP_KEY_FINI a5 w5

/-- `int main (int argc, char **argv)`, on the tokens of the command line after the program
name.
The result is the final state and the exit status of the process: the status glibc exited
with, or `0` when control reaches the closing brace of `main`. The value `argp_parse`
returns is not looked at. -/
def main (args : List String) (w : World) : World × Int :=
  match argp_parse args { cmd := none } w with
  | .exited s w1 => (w1, s)
  | .ret _ a w1 =>
    match a.cmd with
    | some cmd => (call cmd w1, 0)
    | none => (w1, 0)

/-- A fresh process: nothing written, no system call issued, no command called; `v` is the
control value stored at key 0 of the map. -/
def World.init (v : Nat) : World :=
  { value := v, stdout := [], stderr := [], trace := [], calls := [], notices := [] }

/-- A token is accepted when the `ARGP_KEY_ARG` case of `parse_opt` handles it without
reaching `argp_error`, whatever the state. -/
def accepted (t : String) : Prop :=
  ∀ (a : arguments) (w : World) (msg : String),
    parse_opt ARGP_KEY_ARG t a w ≠ argp_error msg w

/-! ## Auxiliary lemmas -/

theorem parse_opt_arg_show (a : arguments) (w : World) :
    parse_opt ARGP_KEY_ARG "show" a w = .ret 0 { cmd := some .show_ } w := by
  simp [parse_opt, ARGP_KEY_ARG, ARGP_KEY_NO_ARGS]

theorem parse_opt_arg_disable (a : arguments) (w : World) :
    parse_opt ARGP_KEY_ARG "disable" a w = .ret 0 { cmd := some .disable } w := by
  simp [parse_opt, ARGP_KEY_ARG, ARGP_KEY_NO_ARGS]

theorem parse_opt_arg_other (t : String) (h1 : t ≠ "show") (h2 : t ≠ "disable")
    (a : arguments) (w : World) :
    parse_opt ARGP_KEY_ARG t a w = argp_error (t ++ " is not a valid command") w := by
  simp [parse_opt, ARGP_KEY_ARG, ARGP_KEY_NO_ARGS, h1, h2]

theorem notify_init (a : arguments) (w : World) : notify ARGP_KEY_INIT a w = .ret 0 a w := by
  simp [notify, parse_opt, ARGP_KEY_INIT, ARGP_KEY_ARG, ARGP_KEY_NO_ARGS]

theorem notify_end (a : arguments) (w : World) : notify ARGP_KEY_END a w = .ret 0 a w := by
  simp [notify, parse_opt, ARGP_KEY_END, ARGP_KEY_ARG, ARGP_KEY_NO_ARGS]

theorem notify_success (a : arguments) (w : World) :
    notify ARGP_KEY_SUCCESS a w = .ret 0 a w := by
  simp [notify, parse_opt, ARGP_KEY_SUCCESS, ARGP_KEY_ARG, ARGP_KEY_NO_ARGS]

theorem notify_fini (a : arguments) (w : World) : notify ARGP_KEY_FINI a w = .ret 0 a w := by
  simp [notify, parse_opt, ARGP_KEY_FINI, ARGP_KEY_ARG, ARGP_KEY_NO_ARGS]

theorem next_ret_zero (a : arguments) (w : World) (f : arguments → World → Parse) :
    (Parse.ret 0 a w).next f = f a w := by
  simp [Parse.next]

theorem next_exited (s : Int) (w : World) (f : arguments → World → Parse) :
    (Parse.exited s w).next f = .exited s w := rfl


theorem is_option_of_dashes : is_option "--" = true := by decide

theorem ne_dashes_of_not_option (t : String) (h : is_option t = false) : t ≠ "--" := by
  intro he
  rw [he, is_option_of_dashes] at h
  exact Bool.noConfusion h

theorem scan_cons_positional (t : String) (ts : List String) (h : is_option t = false)
    (acc : List String) (w : World) : scan (t :: ts) acc w = scan ts (t :: acc) w := by
  have h2 := ne_dashes_of_not_option t h
  cases ts <;> simp [scan, h, h2]

/-- A command line without option tokens goes through the option scan unchanged. -/
theorem scan_positional (ts : List String) (h : ∀ t ∈ ts, is_option t = false)
    (acc : List String) (w : World) : scan ts acc w = .args (acc.reverse ++ ts) := by
  induction ts generalizing acc with
  | nil => simp [scan]
  | cons t ts ih =>
    have h1 := h t (List.mem_cons_self t ts)
    have h3 := ih (fun x hx => h x (List.mem_cons_of_mem t hx)) (t :: acc)
    rw [scan_cons_positional t ts h1, h3]
    simp

/-- When the tokens hold no option and are all consumed with result `0`, and there is at
least one, `argp_parse` returns `0` with the record they left. -/
theorem argp_parse_of_parse_args (ts : List String) (hne : ts ≠ [])
    (hopt : ∀ t ∈ ts, is_option t = false) (a a1 : arguments)
    (w w1 : World) (h : parse_args ts a w = .ret 0 a1 w1) :
    argp_parse ts a w = .ret 0 a1 w1 := by
  simp [argp_parse, notify_init, next_ret_zero, scan_positional ts hopt, h, hne, notify_end,
    notify_success, notify_fini]

/-- When the tokens hold no option and one of them terminates the process, so does
`argp_parse`. -/
theorem argp_parse_of_exited (ts : List String) (hopt : ∀ t ∈ ts, is_option t = false)
    (a : arguments) (w w1 : World) (s : Int)
    (h : parse_args ts a w = .exited s w1) :
    argp_parse ts a w = .exited s w1 := by
  simp [argp_parse, notify_init, next_ret_zero, scan_positional ts hopt, h, next_exited]

theorem accepted_iff (t : String) : accepted t ↔ t = "show" ∨ t = "disable" := by
  constructor
  · intro h
    by_contra hc
    push_neg at hc
    exact h { cmd := none } (World.init 0) _ (parse_opt_arg_other t hc.1 hc.2 _ _)
  · rintro (rfl | rfl) a w msg
    · rw [parse_opt_arg_show]; simp [argp_error]
    · rw [parse_opt_arg_disable]; simp [argp_error]

/-! ## The dispatcher on one token -/

/-- C1 (defect in the code): of the three command tokens, "show" and "disable" are handled
by `parse_opt` with a command selected, but "enable" falls through to the `argp_error`
branch: the third comparison tests "show" a second time. No command is selected for it and
the process is terminated with the usage status. -/
theorem parse_opt_enable_reaches_argp_error (a : arguments) (w : World) :
    parse_opt ARGP_KEY_ARG "show" a w = .ret 0 { cmd := some .show_ } w ∧
    parse_opt ARGP_KEY_ARG "disable" a w = .ret 0 { cmd := some .disable } w ∧
    parse_opt ARGP_KEY_ARG "enable" a w = argp_error "enable is not a valid command" w ∧
    parse_opt ARGP_KEY_ARG "enable" a w =
      .exited 64 { w with stderr := w.stderr ++ [Diag.error "enable is not a valid command"] } := by
  refine ⟨parse_opt_arg_show a w, parse_opt_arg_disable a w, ?_, ?_⟩
  · exact parse_opt_arg_other "enable" (by decide) (by decide) a w
  · rw [parse_opt_arg_other "enable" (by decide) (by decide) a w]
    rfl

/-- C4 (defect in the code): the token "enable" does not resolve to the enable function.
`parse_opt` does not return with the enable function selected, and `main` ends with the
usage status and a diagnostic on standard error without calling any command function. -/
theorem main_enable_not_dispatched (w : World) :
    main ["enable"] w =
      ({ w with stderr := w.stderr ++ [Diag.error "enable is not a valid command"] }, 64) ∧
    (main ["enable"] w).1.calls = w.calls ∧
    Fn.enable ∉ (main ["enable"] (World.init 0)).1.calls ∧
    ∀ a : arguments, parse_opt ARGP_KEY_ARG "enable" a w ≠ .ret 0 { cmd := some .enable } w := by
  have hp := parse_opt_arg_other "enable" (by decide) (by decide)
  have hm : main ["enable"] w =
      ({ w with stderr := w.stderr ++ [Diag.error "enable is not a valid command"] }, 64) := by
    have hx : parse_args ["enable"] { cmd := none } w =
        .exited 64
          { w with stderr := w.stderr ++ [Diag.error "enable is not a valid command"] } := by
      simp [parse_args, hp, argp_error, Parse.next, argp_err_exit_status]
    simp [main, argp_parse_of_exited _ (by decide) _ _ _ _ hx]
  refine ⟨hm, by simp [hm], by decide, ?_⟩
  intro a
  rw [hp a w]
  simp [argp_error]

/-- C5: the token "show" selects the show function and the token "disable" the disable
function; `main` calls the selected function exactly once and the program finishes with
exit status 0, nothing written to standard error. -/
theorem main_show_disable_dispatch (a : arguments) (w : World) :
    parse_opt ARGP_KEY_ARG "show" a w = .ret 0 { cmd := some .show_ } w ∧
    parse_opt ARGP_KEY_ARG "disable" a w = .ret 0 { cmd := some .disable } w ∧
    main ["show"] w = (show_ { w with calls := w.calls ++ [Fn.show_] }, 0) ∧
    main ["disable"] w = (disable { w with calls := w.calls ++ [Fn.disable] }, 0) ∧
    (main ["show"] w).1.calls = w.calls ++ [Fn.show_] ∧
    (main ["disable"] w).1.calls = w.calls ++ [Fn.disable] ∧
    (main ["show"] w).1.stderr = w.stderr ∧
    (main ["disable"] w).1.stderr = w.stderr := by
  have hs : main ["show"] w = (show_ { w with calls := w.calls ++ [Fn.show_] }, 0) := by
    have hx : parse_args ["show"] { cmd := none } w = .ret 0 { cmd := some .show_ } w := by
      simp [parse_args, parse_opt_arg_show, Parse.next]
    simp [main, argp_parse_of_parse_args _ (by simp) (by decide) _ _ _ _ hx, call, Fn.body]
  have hd : main ["disable"] w = (disable { w with calls := w.calls ++ [Fn.disable] }, 0) := by
    have hx : parse_args ["disable"] { cmd := none } w =
        .ret 0 { cmd := some .disable } w := by
      simp [parse_args, parse_opt_arg_disable, Parse.next]
    simp [main, argp_parse_of_parse_args _ (by simp) (by decide) _ _ _ _ hx, call, Fn.body]
  refine ⟨parse_opt_arg_show a w, parse_opt_arg_disable a w, hs, hd, ?_, ?_, ?_, ?_⟩ <;>
    simp [hs, hd, show_, disable]

/-! ## The command functions on the map state -/

/-- C6, as stated, fails: from the map holding 0 at key 0, enable followed by show leaves
standard output empty, so show does not report "enabled"; and from the map holding 1,
disable followed by show does not report "disabled". -/
theorem enable_show_reports_nothing :
    (show_ (enable (World.init 0))).stdout = [] ∧
    (show_ (enable (World.init 0))).stdout ≠ ["enabled"] ∧
    (show_ (disable (World.init 1))).stdout ≠ ["disabled"] ∧
    (show_ (enable (show_ (World.init 0)))).stdout ≠ ["disabled", "enabled"] := by
  decide

/-- C6, amended: for every state, running enable and then show, or disable and then show,
gives back the state unchanged: the value stored at key 0 is the initial one, nothing is
added to standard output and no system call is issued. -/
theorem enable_show_unchanged (w : World) :
    show_ (enable w) = w ∧ show_ (disable w) = w ∧
    (show_ (enable w)).stdout = w.stdout ∧ (show_ (disable w)).stdout = w.stdout ∧
    (show_ (enable w)).value = w.value ∧ (show_ (disable w)).value = w.value ∧
    (show_ (enable w)).trace = w.trace ∧ (show_ (disable w)).trace = w.trace :=
  ⟨rfl, rfl, rfl, rfl, rfl, rfl, rfl, rfl⟩

/-- C7, as stated, fails: from the map holding 0 at key 0 the value stored after enable
(once or twice) is 0, not 1; from the map holding 1 the value stored after disable (once or
twice) is 1, not 0. -/
theorem enable_does_not_store_one :
    (enable (World.init 0)).value ≠ 1 ∧ (enable (enable (World.init 0))).value ≠ 1 ∧
    (disable (World.init 1)).value ≠ 0 ∧ (disable (disable (World.init 1))).value ≠ 0 := by
  decide

/-- C7, amended: for every state, the value stored at key 0 after running enable twice
equals the value stored after running it once, and that value is the initial one; likewise
for disable. -/
theorem enable_disable_idempotent (w : World) :
    (enable (enable w)).value = (enable w).value ∧ (enable w).value = w.value ∧
    (disable (disable w)).value = (disable w).value ∧ (disable w).value = w.value ∧
    enable (enable w) = enable w ∧ disable (disable w) = disable w :=
  ⟨rfl, rfl, rfl, rfl, rfl, rfl⟩

/-- C8, as stated, fails: with 0 stored at key 0 show writes no line at all, so not the
line "disabled"; with 1 stored it does not write "enabled". -/
theorem show_prints_nothing :
    (show_ (World.init 0)).stdout = [] ∧ (show_ (World.init 0)).stdout ≠ ["disabled"] ∧
    (show_ (World.init 1)).stdout = [] ∧ (show_ (World.init 1)).stdout ≠ ["enabled"] := by
  decide

/-- C8, amended: for every value stored at key 0, show writes nothing to standard output,
issues no system call and leaves the stored value unchanged. -/
theorem show_no_effect (w : World) :
    (show_ w).stdout = w.stdout ∧ (show_ w).value = w.value ∧ (show_ w).trace = w.trace ∧
    show_ w = w :=
  ⟨rfl, rfl, rfl, rfl⟩

/-! ## The map client -/

theorem ptr_to_u64_of_lt (a : Arch) (p : Nat) (h : p < 2 ^ ulong_bits a) :
    ptr_to_u64 a p = p ∧ ptr_to_u64 a p % 2 ^ 64 = p := by
  have hle : 2 ^ ulong_bits a ≤ 2 ^ 64 := by
    cases a <;> simp [ulong_bits]
  have h1 : ptr_to_u64 a p = p := Nat.mod_eq_of_lt h
  exact ⟨h1, by rw [h1]; exact Nat.mod_eq_of_lt (lt_of_lt_of_le h hle)⟩

/-- C9: each map client wrapper issues exactly one system call and returns its result
unchanged, whatever the result is. For arguments in the range of their C types, the call of
`bpf_obj_get` is `BPF_OBJ_GET` with `pathname` set and the other fields zero; the call of
`bpf_map_update_elem` is `BPF_MAP_UPDATE_ELEM` with `map_fd`, `key`, `value` and `flags` set
to the four arguments; the call of `bpf_map_lookup_elem` is `BPF_MAP_LOOKUP_ELEM` with
`map_fd`, `key` and `value` set to the three arguments and `flags` zero. Nothing but the
trace changes in the state. -/
theorem map_client_one_syscall (t : Target) (k : Responder) (w : World)
    (pathname fd key value flags : Nat)
    (hp : pathname < 2 ^ ulong_bits t.arch) (hfd : fd < 2 ^ 32)
    (hk : key < 2 ^ ulong_bits t.arch) (hv : value < 2 ^ ulong_bits t.arch)
    (hfl : flags < 2 ^ 64) :
    bpf_obj_get t k pathname w =
      (k w.trace ⟨NR_bpf t.arch, .BPF_OBJ_GET, .obj pathname 0 0, t.sizeof_bpf_attr⟩,
        { w with trace := w.trace ++
            [⟨NR_bpf t.arch, .BPF_OBJ_GET, .obj pathname 0 0, t.sizeof_bpf_attr⟩] }) ∧
    bpf_map_update_elem t k fd key value flags w =
      (k w.trace
          ⟨NR_bpf t.arch, .BPF_MAP_UPDATE_ELEM, .elem fd key value flags, t.sizeof_bpf_attr⟩,
        { w with trace := w.trace ++
            [⟨NR_bpf t.arch, .BPF_MAP_UPDATE_ELEM, .elem fd key value flags,
              t.sizeof_bpf_attr⟩] }) ∧
    bpf_map_lookup_elem t k fd key value w =
      (k w.trace
          ⟨NR_bpf t.arch, .BPF_MAP_LOOKUP_ELEM, .elem fd key value 0, t.sizeof_bpf_attr⟩,
        { w with trace := w.trace ++
            [⟨NR_bpf t.arch, .BPF_MAP_LOOKUP_ELEM, .elem fd key value 0,
              t.sizeof_bpf_attr⟩] }) ∧
    (bpf_obj_get t k pathname w).2.trace.length = w.trace.length + 1 ∧
    (bpf_map_update_elem t k fd key value flags w).2.trace.length = w.trace.length + 1 ∧
    (bpf_map_lookup_elem t k fd key value w).2.trace.length = w.trace.length + 1 := by
  have e1 := (ptr_to_u64_of_lt t.arch pathname hp).2
  have e2 := (ptr_to_u64_of_lt t.arch key hk).2
  have e3 := (ptr_to_u64_of_lt t.arch value hv).2
  have e4 : fd % 2 ^ 32 = fd := Nat.mod_eq_of_lt hfd
  have e5 : flags % 2 ^ 64 = flags := Nat.mod_eq_of_lt hfl
  simp only [bpf_obj_get, bpf_map_update_elem, bpf_map_lookup_elem, syscall, e1, e2, e3, e4,
    e5, List.length_append, List.length_singleton, and_self]

/-- Witness of C9: on x86_64 with a kernel that fails every call with -1, from a fresh
process, each wrapper returns -1 after a single call. -/
theorem map_client_one_syscall_witness :
    (4096 < 2 ^ ulong_bits Arch.x86_64 ∧ 3 < 2 ^ 32 ∧ 8192 < 2 ^ ulong_bits Arch.x86_64 ∧
      8196 < 2 ^ ulong_bits Arch.x86_64 ∧ 2 < 2 ^ 64) ∧
    bpf_obj_get ⟨.x86_64, 48⟩ (fun _ _ => -1) 4096 (World.init 0) =
      (-1, { World.init 0 with trace := [⟨321, .BPF_OBJ_GET, .obj 4096 0 0, 48⟩] }) ∧
    bpf_map_update_elem ⟨.x86_64, 48⟩ (fun _ _ => -1) 3 8192 8196 2 (World.init 0) =
      (-1, { World.init 0 with
        trace := [⟨321, .BPF_MAP_UPDATE_ELEM, .elem 3 8192 8196 2, 48⟩] }) ∧
    bpf_map_lookup_elem ⟨.x86_64, 48⟩ (fun _ _ => -1) 3 8192 8196 (World.init 0) =
      (-1, { World.init 0 with
        trace := [⟨321, .BPF_MAP_LOOKUP_ELEM, .elem 3 8192 8196 0, 48⟩] }) :=
  have h := map_client_one_syscall ⟨.x86_64, 48⟩ (fun _ _ => -1) (World.init 0)
    4096 3 8192 8196 2 (by simp [ulong_bits]) (by simp) (by simp [ulong_bits])
    (by simp [ulong_bits]) (by simp)
  ⟨by simp [ulong_bits], h.1, h.2.1, h.2.2.1⟩

/-! ## Several positional arguments -/

/-- On a non-empty list of tokens among "show" and "disable", the record left by
`parse_args` is the one `parse_opt` leaves on the last token alone. -/
theorem parse_args_last (ts : List String) (hne : ts ≠ [])
    (hv : ∀ t ∈ ts, t = "show" ∨ t = "disable") (a : arguments) (w : World) :
    parse_args ts a w = parse_opt ARGP_KEY_ARG (ts.getLast hne) { cmd := none } w := by
  induction ts generalizing a with
  | nil => exact absurd rfl hne
  | cons t ts ih =>
    have ht : ∃ f, ∀ b : arguments, parse_opt ARGP_KEY_ARG t b w = .ret 0 { cmd := some f } w := by
      rcases hv t (List.mem_cons_self t ts) with rfl | rfl
      · exact ⟨.show_, fun b => parse_opt_arg_show b w⟩
      · exact ⟨.disable, fun b => parse_opt_arg_disable b w⟩
    obtain ⟨f, hf⟩ := ht
    cases ts with
    | nil => simp [parse_args, hf, Parse.next]
    | cons u us =>
      have hrest : ∀ x ∈ u :: us, x = "show" ∨ x = "disable" :=
        fun x hx => hv x (List.mem_cons_of_mem t hx)
      have h := ih (by simp) hrest { cmd := some f }
      rw [List.getLast_cons (by simp : u :: us ≠ [])]
      rw [← h]
      simp [parse_args, hf, Parse.next]

/-- C10: for every non-empty list of positional tokens that `parse_opt` accepts, the
command left selected after all of them is the command that the last token alone selects
from `NULL`; `main` calls exactly that command, once, and finishes with exit status 0 and
nothing on standard error, however many tokens there are. -/
theorem main_last_token_wins (ts : List String) (hne : ts ≠ [])
    (hacc : ∀ t ∈ ts, accepted t) (w : World) :
    ∃ f : Fn,
      parse_opt ARGP_KEY_ARG (ts.getLast hne) { cmd := none } w = .ret 0 { cmd := some f } w ∧
      parse_args ts { cmd := none } w = .ret 0 { cmd := some f } w ∧
      argp_parse ts { cmd := none } w = .ret 0 { cmd := some f } w ∧
      main ts w = (call f w, 0) ∧
      (main ts w).1.calls = w.calls ++ [f] ∧
      (main ts w).1.stderr = w.stderr := by
  have hv : ∀ t ∈ ts, t = "show" ∨ t = "disable" :=
    fun t ht => (accepted_iff t).1 (hacc t ht)
  have hlast := parse_args_last ts hne hv { cmd := none } w
  have hsel : ∃ f : Fn,
      parse_opt ARGP_KEY_ARG (ts.getLast hne) { cmd := none } w =
        .ret 0 { cmd := some f } w := by
    rcases hv _ (List.getLast_mem hne) with h | h
    · exact ⟨.show_, by rw [h]; exact parse_opt_arg_show _ w⟩
    · exact ⟨.disable, by rw [h]; exact parse_opt_arg_disable _ w⟩
  obtain ⟨f, hf⟩ := hsel
  have hpa : parse_args ts { cmd := none } w = .ret 0 { cmd := some f } w := by
    rw [hlast, hf]
  have hopt : ∀ t ∈ ts, is_option t = false := by
    intro t ht
    rcases hv t ht with rfl | rfl <;> decide
  have hap := argp_parse_of_parse_args ts hne hopt _ _ _ _ hpa
  have hm : main ts w = (call f w, 0) := by
    simp [main, hap]
  refine ⟨f, hf, hpa, hap, hm, ?_, ?_⟩
  · rw [hm]; cases f <;> rfl
  · rw [hm]; cases f <;> rfl

/-- Witness of C10: the command line "show disable" runs only the disable function. -/
theorem main_last_token_wins_witness :
    ["show", "disable"] ≠ [] ∧ (∀ t ∈ ["show", "disable"], accepted t) ∧
    main ["show", "disable"] (World.init 0) =
      ({ World.init 0 with calls := [Fn.disable] }, 0) := by
  have hacc : ∀ t ∈ ["show", "disable"], accepted t := by
    intro t ht
    rw [accepted_iff]
    simpa using ht
  refine ⟨by simp, hacc, ?_⟩
  obtain ⟨f, hf, _, _, hm, _⟩ :=
    main_last_token_wins ["show", "disable"] (by simp) hacc (World.init 0)
  have hd : f = Fn.disable := by
    have h := hf.symm.trans (parse_opt_arg_disable { cmd := none } (World.init 0))
    simpa using h
  rw [hm, hd]
  rfl

end MplsBpfUser

